import Mathlib

/-!
Verification of the terminal/PTY backend in `src/src-tauri/src/lib.rs`.

The registry (`TerminalState`), the four control operations
(`terminal_create`, `terminal_write`, `terminal_resize`, `terminal_close`),
the per-session reader-thread loop, the stats aggregation
(`get_claude_stats`) and the directory scanner (`scan_directory`,
`scan_dir_recursive`) are shallowly embedded as pure Lean functions.

Conventions used throughout:
* Machine integers are modelled as `Nat`; the `u32` session counter is
  reduced `% 2 ^ 32` at its increment, matching the wrapping behaviour of
  the shipped (release-profile, overflow checks disabled) binary.
* Fallible external calls (PTY allocation, spawn, handle acquisition,
  write, flush, resize) are parameters of type `Except String _` or
  `Option String` carrying the backend error text: `none` / `.ok` means
  the external call succeeded, `some e` / `.error e` that it failed
  with message `e`.  The Rust `format!` error wrappers are reproduced
  literally.
* `f64` statistics values are modelled as exact rationals; every concrete
  value appearing in a theorem below is exactly representable in IEEE 754
  binary64 and the arithmetic on it is exact there as well.
-/

/-- Modulus of the `u32` session-id counter (`next_id: u32`). -/
def u32Mod : Nat := 2 ^ 32

/-- Modulus of the `u64` token counters in `ClaudeStats`. -/
def u64Mod : Nat := 2 ^ 64

/-- Model of the PTY writer handle (`Box<dyn Write + Send>`, lib.rs:162).
`pending` are bytes accepted by `write_all` but not yet flushed,
`delivered` are bytes forced out by `flush`. -/
structure WriterState where
  pending : List Nat
  delivered : List Nat
deriving DecidableEq, Repr

/-- Model of `PtyInstance` (lib.rs:161-164): the writer handle plus the
owned PTY pair.  The pair is an opaque OS handle; the kernel-side PTY
geometry is not part of the registry value, so it does not appear here. -/
structure PtyInstance where
  writer : WriterState
deriving DecidableEq, Repr

/-- Model of `TerminalState` (lib.rs:167-170): the session map and the
`u32` allocation counter.  The `HashMap<u32, PtyInstance>` is modelled as
an association list without duplicate keys. -/
structure TerminalState where
  terminals : List (Nat × PtyInstance)
  next_id : Nat
deriving DecidableEq, Repr

/-- `TerminalState::new` (lib.rs:172-179): empty map, counter starts at 1. -/
def TerminalState.new : TerminalState :=
  { terminals := [], next_id := 1 }

/-- `HashMap::get` / `get_mut`: look a key up in the association list. -/
def lookupT (id : Nat) (l : List (Nat × PtyInstance)) : Option PtyInstance :=
  (l.find? (fun p => p.1 == id)).map (fun p => p.2)

/-- `HashMap::remove`: drop the entry with the given key, if present. -/
def removeT (id : Nat) (l : List (Nat × PtyInstance)) : List (Nat × PtyInstance) :=
  l.filter (fun p => !(p.1 == id))

/-- `HashMap::insert`: add an entry, overwriting any entry with that key. -/
def insertT (id : Nat) (v : PtyInstance) (l : List (Nat × PtyInstance)) :
    List (Nat × PtyInstance) :=
  (id, v) :: removeT id l

/-- In-place mutation of an existing entry (what `get_mut` followed by
writes to the instance amounts to). -/
def updateT (id : Nat) (v : PtyInstance) (l : List (Nat × PtyInstance)) :
    List (Nat × PtyInstance) :=
  l.map (fun p => if p.1 == id then (id, v) else p)

/-- The set (as a key list) of registered session ids. -/
def sessionIds (st : TerminalState) : List Nat :=
  st.terminals.map (fun p => p.1)

/-- `format!("Terminal {} not found", id)` (lib.rs:313, 340). -/
def notFoundMsg (id : Nat) : String :=
  "Terminal " ++ toString id ++ " not found"

/-- UTF-8 encoding of one Unicode code point (what `str::as_bytes`
produces per character of the payload). -/
def encodeChar (n : Nat) : List Nat :=
  if n < 0x80 then [n]
  else if n < 0x800 then [0xC0 + n / 64, 0x80 + n % 64]
  else if n < 0x10000 then
    [0xE0 + n / 4096, 0x80 + (n / 64) % 64, 0x80 + n % 64]
  else
    [0xF0 + n / 262144, 0x80 + (n / 4096) % 64, 0x80 + (n / 64) % 64, 0x80 + n % 64]

/-- `data.as_bytes()` (lib.rs:317): the UTF-8 bytes of a string. -/
def utf8Encode (s : String) : List Nat :=
  s.data.flatMap (fun c => encodeChar c.toNat)

/-- Outcomes of the external calls made by `terminal_create`
(lib.rs:204-244) before the registry is touched, plus the environment
lookups it performs.  `.ok` / `none` marks the call as succeeding. -/
structure CreateEnv where
  openpty : Except String Unit
  shellVar : Option String
  homeDir : Option String
  spawn_result : Except String Unit
  take_writer : Except String Unit
  clone_reader : Except String Unit
deriving Repr

/-- All four fallible external calls of `terminal_create` succeed. -/
def envOk (env : CreateEnv) : Bool :=
  (match env.openpty with | .ok _ => true | .error _ => false) &&
  (match env.spawn_result with | .ok _ => true | .error _ => false) &&
  (match env.take_writer with | .ok _ => true | .error _ => false) &&
  (match env.clone_reader with | .ok _ => true | .error _ => false)

/-- `terminal_create` (lib.rs:196-300).  The external PTY calls are read
from `env`; `rows`, `cols` and `cwd` are forwarded to the backend and do
not affect the registry.  The registry is touched only in the critical
section (lib.rs:247-259): allocate `next_id`, increment it (`u32`
wrapping), insert a fresh writer.  The reader thread spawned afterwards
(lib.rs:264-296) is modelled separately by `readerRun`. -/
def terminal_create (env : CreateEnv) (rows cols : Nat) (cwd : Option String)
    (st : TerminalState) : Except String Nat × TerminalState :=
  match env.openpty with
  | .error e => (.error ("Failed to open PTY: " ++ e), st)
  | .ok _ =>
    let _shell := env.shellVar.getD "/bin/bash"
    let _cwd := match cwd with
      | some dir => some dir
      | none => env.homeDir
    let _geometry := (rows, cols)
    match env.spawn_result with
    | .error e => (.error ("Failed to spawn shell: " ++ e), st)
    | .ok _ =>
      match env.take_writer with
      | .error e => (.error ("Failed to get PTY writer: " ++ e), st)
      | .ok _ =>
        match env.clone_reader with
        | .error e => (.error ("Failed to get PTY reader: " ++ e), st)
        | .ok _ =>
          let id := st.next_id
          (.ok id,
            { terminals := insertT id { writer := { pending := [], delivered := [] } } st.terminals,
              next_id := (st.next_id + 1) % u32Mod })

/-- `terminal_write` (lib.rs:303-326): look the session up under the
registry lock, `write_all` the UTF-8 bytes of `data`, then `flush`.
`writeErr` / `flushErr` are the outcomes of the two fallible I/O calls
(`none` = success).  On a failed `write_all` the model leaves the buffer
unchanged; no claim below depends on the buffer contents of a failed
call. -/
def terminal_write (st : TerminalState) (id : Nat) (data : String)
    (writeErr flushErr : Option String) : Except String Unit × TerminalState :=
  match lookupT id st.terminals with
  | none => (.error (notFoundMsg id), st)
  | some inst =>
    match writeErr with
    | some e => (.error ("Failed to write to terminal: " ++ e), st)
    | none =>
      let afterWrite : PtyInstance :=
        { writer := { pending := inst.writer.pending ++ utf8Encode data,
                      delivered := inst.writer.delivered } }
      match flushErr with
      | some e =>
        (.error ("Failed to flush terminal: " ++ e),
          { st with terminals := updateT id afterWrite st.terminals })
      | none =>
        let afterFlush : PtyInstance :=
          { writer := { pending := [],
                        delivered := afterWrite.writer.delivered ++ afterWrite.writer.pending } }
        (.ok (), { st with terminals := updateT id afterFlush st.terminals })

/-- `terminal_resize` (lib.rs:329-354): immutable lookup under the lock,
then a backend `resize` call on the master handle whose outcome is
`resizeErr`.  The registry value is never written (the lookup is `get`,
not `get_mut`), so the state component is returned unchanged. -/
def terminal_resize (st : TerminalState) (id : Nat) (rows cols : Nat)
    (resizeErr : Option String) : Except String Unit × TerminalState :=
  match lookupT id st.terminals with
  | none => (.error (notFoundMsg id), st)
  | some _ =>
    let _geometry := (rows, cols)
    match resizeErr with
    | some e => (.error ("Failed to resize terminal: " ++ e), st)
    | none => (.ok (), st)

/-- `terminal_close` (lib.rs:357-366): unconditionally remove the entry
and return `Ok(())`. -/
def terminal_close (st : TerminalState) (id : Nat) :
    Except String Unit × TerminalState :=
  (.ok (), { st with terminals := removeT id st.terminals })

/-- An invocation of one of the four control commands, with the outcomes
of its external calls baked in (they are inputs of the run, not chosen by
the registry). -/
inductive Op where
  | create (env : CreateEnv) (rows cols : Nat) (cwd : Option String)
  | write (id : Nat) (data : String) (writeErr flushErr : Option String)
  | resize (id : Nat) (rows cols : Nat) (resizeErr : Option String)
  | close (id : Nat)

/-- Execute one command against the registry; the second component is the
session id returned when the command was a successful `terminal_create`. -/
def stepOp (st : TerminalState) : Op → TerminalState × Option Nat
  | .create env r c cwd =>
    match terminal_create env r c cwd st with
    | (.ok id, st2) => (st2, some id)
    | (.error _, st2) => (st2, none)
  | .write id data w f => ((terminal_write st id data w f).2, none)
  | .resize id r c e => ((terminal_resize st id r c e).2, none)
  | .close id => ((terminal_close st id).2, none)

/-- Run a sequence of commands, collecting the ids returned by the
successful `terminal_create` calls, in order. -/
def runOps (st : TerminalState) : List Op → TerminalState × List Nat
  | [] => (st, [])
  | op :: rest =>
    let s := stepOp st op
    let r := runOps s.1 rest
    (r.1, s.2.toList ++ r.2)

/-- Whether a command is a `terminal_create` whose external calls all
succeed (exactly these commands return a fresh id). -/
def isCreateOk : Op → Bool
  | .create env _ _ _ => envOk env
  | _ => false

/-- Number of successful `terminal_create` calls in a sequence. -/
def countCreates (ops : List Op) : Nat := ops.countP isCreateOk

/-- A `terminal_create` invocation whose external calls all succeed. -/
def createOpOk : Op :=
  .create { openpty := .ok (), shellVar := none, homeDir := none,
            spawn_result := .ok (), take_writer := .ok (), clone_reader := .ok () }
    24 80 none

/-- `[s, s+1, ..., s+n-1]`: the ids a run of `n` successful creations
hands out when the counter starts at `s` and never wraps. -/
def natRange : Nat → Nat → List Nat
  | _, 0 => []
  | s, n + 1 => s :: natRange (s + 1) n

/-- Result of one `reader.read(&mut buf)` call (lib.rs:267): `ok chunk`
is `Ok(chunk.length)` with `chunk` the bytes read (`Ok 0` = EOF is
`ok []`), `err` is `Err(_)`. -/
inductive ReadResult where
  | ok (chunk : List Nat)
  | err
deriving DecidableEq, Repr

/-- An event emitted to the frontend sink (lib.rs:182-193): the payload of
a `terminal-output` event is kept as the UTF-8 bytes of its `data`
string. -/
inductive TermEvent where
  | output (id : Nat) (data : List Nat)
  | exit (id : Nat) (code : Option Nat)
deriving DecidableEq, Repr

/-- Continuation byte: `0x80..=0xBF`. -/
def isCont (b : Nat) : Bool := 0x80 ≤ b && b ≤ 0xBF

/-- Two-byte lead: `0xC2..=0xDF`. -/
def isLead2 (b : Nat) : Bool := 0xC2 ≤ b && b ≤ 0xDF

/-- Three-byte lead: `0xE0..=0xEF`. -/
def isLead3 (b : Nat) : Bool := 0xE0 ≤ b && b ≤ 0xEF

/-- Four-byte lead: `0xF0..=0xF4`. -/
def isLead4 (b : Nat) : Bool := 0xF0 ≤ b && b ≤ 0xF4

/-- Admissible range of the first continuation byte after lead `b`
(the restricted second-byte ranges of well-formed UTF-8). -/
def cont2Ok (b c1 : Nat) : Bool :=
  if b = 0xE0 then 0xA0 ≤ c1 && c1 ≤ 0xBF
  else if b = 0xED then 0x80 ≤ c1 && c1 ≤ 0x9F
  else if b = 0xF0 then 0x90 ≤ c1 && c1 ≤ 0xBF
  else if b = 0xF4 then 0x80 ≤ c1 && c1 ≤ 0x8F
  else isCont c1

/-- UTF-8 bytes of U+FFFD, the replacement character. -/
def repl : List Nat := [0xEF, 0xBF, 0xBD]

/-- Model of `String::from_utf8_lossy` (lib.rs:271) viewed at the byte
level: each maximal subpart of an ill-formed sequence is replaced by
U+FFFD, per the substitution-of-maximal-subparts policy the Rust standard
library implements; well-formed sequences pass through unchanged. -/
def utf8Lossy : List Nat → List Nat
  | [] => []
  | b :: rest =>
    if b ≤ 0x7F then b :: utf8Lossy rest
    else if isLead2 b then
      match rest with
      | [] => repl
      | c1 :: r1 =>
        if isCont c1 then b :: c1 :: utf8Lossy r1
        else repl ++ utf8Lossy (c1 :: r1)
    else if isLead3 b then
      match rest with
      | [] => repl
      | c1 :: r1 =>
        if cont2Ok b c1 then
          match r1 with
          | [] => repl
          | c2 :: r2 =>
            if isCont c2 then b :: c1 :: c2 :: utf8Lossy r2
            else repl ++ utf8Lossy (c2 :: r2)
        else repl ++ utf8Lossy (c1 :: r1)
    else if isLead4 b then
      match rest with
      | [] => repl
      | c1 :: r1 =>
        if cont2Ok b c1 then
          match r1 with
          | [] => repl
          | c2 :: r2 =>
            if isCont c2 then
              match r2 with
              | [] => repl
              | c3 :: r3 =>
                if isCont c3 then b :: c1 :: c2 :: c3 :: utf8Lossy r3
                else repl ++ utf8Lossy (c3 :: r3)
            else repl ++ utf8Lossy (c2 :: r2)
        else repl ++ utf8Lossy (c1 :: r1)
    else repl ++ utf8Lossy rest

/-- The reader-thread body (lib.rs:264-296) for one session, as the
ordered trace of events it emits: loop over the read results, publishing
one `terminal-output` event (lossily decoded) per nonzero read; on the
first `Ok(0)` or `Err(_)` stop reading, wait for the child (whose exit
code, `child.wait().ok().map(..)`, is the `code` argument) and publish
one `terminal-exit` event.  An empty suffix of read results means the
thread is still blocked in `read`, so no further event appears. -/
def readerRun (id : Nat) (code : Option Nat) : List ReadResult → List TermEvent
  | [] => []
  | .ok [] :: _ => [.exit id code]
  | .ok (b :: bs) :: rest => .output id (utf8Lossy (b :: bs)) :: readerRun id code rest
  | .err :: _ => [.exit id code]

/-- A read result that terminates the read loop (`Ok(0)` or `Err(_)`). -/
def isStopRead : ReadResult → Bool
  | .ok [] => true
  | .ok (_ :: _) => false
  | .err => true

/-- The byte chunks the loop actually reads: the nonzero reads strictly
before the first loop-terminating read result. -/
def chunksRead (reads : List ReadResult) : List (List Nat) :=
  (reads.takeWhile (fun r => !(isStopRead r))).filterMap
    (fun r => match r with | .ok c => some c | .err => none)

/-- The stream of read results eventually terminates the loop. -/
def hasTerminator (reads : List ReadResult) : Bool := reads.any isStopRead

/-- The `data` payloads of the `terminal-output` events of a trace. -/
def outputPayloads (tr : List TermEvent) : List (List Nat) :=
  tr.filterMap (fun e => match e with | .output _ d => some d | .exit _ _ => none)

/-- Whether an event is a `terminal-exit` event. -/
def isExitEvent : TermEvent → Bool
  | .exit _ _ => true
  | .output _ _ => false

/-- The primitive steps `terminal_write` performs, in program order
(lib.rs:309, 310-313, 315-318, 320-323, and the guard drop at the end of
the function body).  The `MutexGuard` obtained at lib.rs:309 is borrowed
by the looked-up `&mut PtyInstance`, so it lives until the function
returns. -/
inductive WriteStep where
  | lockAcquire
  | lookupSession
  | ptyWriteAll
  | ptyFlush
  | lockRelease
deriving DecidableEq, Repr

/-- The step sequence of a successful `terminal_write` call. -/
def terminal_write_trace : List WriteStep :=
  [.lockAcquire, .lookupSession, .ptyWriteAll, .ptyFlush, .lockRelease]

/-- Whether the registry lock is held after executing a step, given
whether it was held before. -/
def heldAfter (h : Bool) : WriteStep → Bool
  | .lockAcquire => true
  | .lockRelease => false
  | _ => h

/-- Pair each step with whether the registry lock is held while that step
executes (the lock state established by the preceding steps). -/
def lockHeldBefore : List WriteStep → Bool → List (WriteStep × Bool)
  | [], _ => []
  | s :: rest, h => (s, h) :: lockHeldBefore rest (heldAfter h s)

/-- The lock-annotated trace of `terminal_write`, entered lock-free. -/
def writeLockTrace : List (WriteStep × Bool) :=
  lockHeldBefore terminal_write_trace false

/-- The blocking PTY I/O steps of `terminal_write`. -/
def isBlockingIO : WriteStep → Bool
  | .ptyWriteAll => true
  | .ptyFlush => true
  | _ => false

/-- Per-model usage record of `~/.claude/stats-cache.json`
(lib.rs:24-32); the `f64` cost is modelled as an exact rational. -/
structure ModelUsage where
  input_tokens : Option Nat
  output_tokens : Option Nat
  cache_read_input_tokens : Option Nat
  cache_creation_input_tokens : Option Nat
  cost_u_s_d : Option ℚ

/-- Aggregated statistics (lib.rs:13-21). -/
structure ClaudeStats where
  input_tokens : Nat
  output_tokens : Nat
  cache_read_input_tokens : Nat
  cache_creation_input_tokens : Nat
  cost_usd : ℚ
deriving DecidableEq, Repr

/-- `ClaudeStats::default()`: all counters and the cost are zero. -/
def ClaudeStats.default : ClaudeStats :=
  { input_tokens := 0, output_tokens := 0, cache_read_input_tokens := 0,
    cache_creation_input_tokens := 0, cost_usd := 0 }

/-- One accumulation step of the loop at lib.rs:66-72: the `u64` token
counters wrap at `2 ^ 64`, the `f64` cost accumulates (exact in the
rational model). -/
def accumUsage (s : ClaudeStats) (u : ModelUsage) : ClaudeStats :=
  { input_tokens := (s.input_tokens + u.input_tokens.getD 0) % u64Mod,
    output_tokens := (s.output_tokens + u.output_tokens.getD 0) % u64Mod,
    cache_read_input_tokens :=
      (s.cache_read_input_tokens + u.cache_read_input_tokens.getD 0) % u64Mod,
    cache_creation_input_tokens :=
      (s.cache_creation_input_tokens + u.cache_creation_input_tokens.getD 0) % u64Mod,
    cost_usd := s.cost_usd + u.cost_u_s_d.getD 0 }

/-- The aggregation core of `get_claude_stats` (lib.rs:62-83), applied to
the list of per-model usage records parsed from the stats file (the
surrounding file I/O is outside this model).  Sums every field across the
models, then, exactly when the summed cost is zero, replaces it by the
Opus-pricing estimate computed from the summed token counts
(lib.rs:76-81). -/
def get_claude_stats (usages : List ModelUsage) : ClaudeStats :=
  let stats := usages.foldl accumUsage ClaudeStats.default
  if stats.cost_usd = 0 then
    { stats with cost_usd :=
        (stats.input_tokens : ℚ) / 1000000 * 15
        + (stats.output_tokens : ℚ) / 1000000 * 75
        + (stats.cache_read_input_tokens : ℚ) / 1000000 * 1.875
        + (stats.cache_creation_input_tokens : ℚ) / 1000000 * 18.75 }
  else stats

/-- Declarative sum of the per-model cost fields (absent = 0). -/
def costSum (usages : List ModelUsage) : ℚ :=
  (usages.map (fun u => u.cost_u_s_d.getD 0)).sum

/-- Declarative sums of the per-model token counts (absent = 0). -/
def inputSum (usages : List ModelUsage) : Nat :=
  (usages.map (fun u => u.input_tokens.getD 0)).sum

/-- Declarative sum of the per-model output token counts. -/
def outputSum (usages : List ModelUsage) : Nat :=
  (usages.map (fun u => u.output_tokens.getD 0)).sum

/-- Declarative sum of the per-model cache-read token counts. -/
def cacheReadSum (usages : List ModelUsage) : Nat :=
  (usages.map (fun u => u.cache_read_input_tokens.getD 0)).sum

/-- Declarative sum of the per-model cache-creation token counts. -/
def cacheCreationSum (usages : List ModelUsage) : Nat :=
  (usages.map (fun u => u.cache_creation_input_tokens.getD 0)).sum

/-- A node of the scanned filesystem tree: a plain file, or a directory
with its child entries; `readable = false` models a directory on which
`fs::read_dir` fails (lib.rs:118-120). -/
inductive FsNode where
  | file
  | dir (readable : Bool) (children : List (String × FsNode))

/-- `path.is_dir()` (lib.rs:137). -/
def FsNode.isDir : FsNode → Bool
  | .file => false
  | .dir _ _ => true

/-- The directory names excluded by the `matches!` at lib.rs:130-135. -/
def excludedNames : List String :=
  ["node_modules", "dist", "build", "target", "__pycache__", "venv", ".git"]

/-- `name.starts_with('.')` (lib.rs:127): the first character is a dot.
Defined on the character list so that it evaluates inside the kernel. -/
def startsWithDot (name : String) : Bool :=
  match name.data with
  | [] => false
  | c :: _ => c == '.'

/-- `entry.path()`: join a directory path and a child name. -/
def joinPath (p name : String) : String := p ++ "/" ++ name

/-- The `file_type` field pushed at lib.rs:140. -/
def fileTypeOf (node : FsNode) : String :=
  if node.isDir then "directory" else "file"

/-- An entry of the scan result (lib.rs:99-105). -/
structure FileEntry where
  path : String
  file_type : String
  name : String
deriving DecidableEq, Repr

/-- `scan_dir_recursive` (lib.rs:107-148), recursing on the remaining
depth budget: the source recurses on `depth` with the guard
`depth >= max_depth` at entry and calls itself with `depth + 1`; with
`fuel = max_depth - depth` that guard is `fuel = 0` and the recursive
call gets `fuel - 1`, which makes the recursion structural.  Hidden names
(leading `.`) and the excluded directory names are skipped; every kept
child is pushed, and kept directories are recursed into. -/
def scanFuel : Nat → String → FsNode → List FileEntry
  | 0, _, _ => []
  | _ + 1, _, .file => []
  | _ + 1, _, .dir false _ => []
  | fuel + 1, current, .dir true children =>
    children.flatMap (fun child =>
      if startsWithDot child.1 then []
      else if excludedNames.contains child.1 then []
      else
        { path := joinPath current child.1,
          file_type := fileTypeOf child.2,
          name := child.1 } ::
        (if child.2.isDir then scanFuel fuel (joinPath current child.1) child.2 else []))

/-- `scan_dir_recursive` at its original signature. -/
def scan_dir_recursive (current : String) (node : FsNode) (max_depth depth : Nat) :
    List FileEntry :=
  scanFuel (max_depth - depth) current node

/-- `scan_directory` (lib.rs:87-97): `root = none` models a path that
fails the `path.exists()` check; otherwise the tree rooted at the path is
scanned from depth 0. -/
def scan_directory (root : Option FsNode) (rootPath : String) (max_depth : Nat) :
    Except String (List FileEntry) :=
  match root with
  | none => .error ("Path does not exist: " ++ rootPath)
  | some node => .ok (scan_dir_recursive rootPath node max_depth 0)

/-- `EntryAt cur node d e` holds when `e` is the listing entry of a
non-hidden, non-excluded child located `d` levels below `node` (with
every directory on the way down itself readable, non-hidden and
non-excluded): the declarative depth-indexed description of what the
scanner may report. -/
inductive EntryAt : String → FsNode → Nat → FileEntry → Prop where
  | base {cur : String} {children : List (String × FsNode)} {name : String} {child : FsNode}
      (hmem : (name, child) ∈ children)
      (hdot : startsWithDot name = false)
      (hexcl : excludedNames.contains name = false) :
      EntryAt cur (.dir true children) 0
        { path := joinPath cur name, file_type := fileTypeOf child, name := name }
  | step {cur : String} {children : List (String × FsNode)} {name : String} {child : FsNode}
      {d : Nat} {e : FileEntry}
      (hmem : (name, child) ∈ children)
      (hdot : startsWithDot name = false)
      (hexcl : excludedNames.contains name = false)
      (hdir : child.isDir = true)
      (hrec : EntryAt (joinPath cur name) child d e) :
      EntryAt cur (.dir true children) (d + 1) e

/-- Declarative well-formedness of a byte list as UTF-8: a concatenation
of well-formed one- to four-byte scalar sequences.  This is the
spec-side notion "contains no invalid UTF-8 byte sequences" against which
the lossy decoder is compared. -/
inductive Utf8Chunks : List Nat → Prop where
  | nil : Utf8Chunks []
  | ascii {b : Nat} {r : List Nat}
      (hb : b ≤ 0x7F) (hr : Utf8Chunks r) : Utf8Chunks (b :: r)
  | two {b c1 : Nat} {r : List Nat}
      (hb : isLead2 b = true) (hc1 : isCont c1 = true) (hr : Utf8Chunks r) :
      Utf8Chunks (b :: c1 :: r)
  | three {b c1 c2 : Nat} {r : List Nat}
      (hb : isLead3 b = true) (hc1 : cont2Ok b c1 = true) (hc2 : isCont c2 = true)
      (hr : Utf8Chunks r) : Utf8Chunks (b :: c1 :: c2 :: r)
  | four {b c1 c2 c3 : Nat} {r : List Nat}
      (hb : isLead4 b = true) (hc1 : cont2Ok b c1 = true) (hc2 : isCont c2 = true)
      (hc3 : isCont c3 = true) (hr : Utf8Chunks r) : Utf8Chunks (b :: c1 :: c2 :: c3 :: r)

/-- A one-session registry: id 1 registered with an empty writer, the
counter already advanced to 2 (the state after one successful create). -/
def stW : TerminalState :=
  { terminals := [(1, { writer := { pending := [], delivered := [] } })], next_id := 2 }

/-- A create environment whose PTY allocation fails. -/
def envFailOpen : CreateEnv :=
  { openpty := .error "boom", shellVar := none, homeDir := none,
    spawn_result := .ok (), take_writer := .ok (), clone_reader := .ok () }

/-- A command sequence with two successful creations and an intervening
close. -/
def opsEx : List Op := [createOpOk, Op.close 1, createOpOk]

/-- A read-result stream: one two-byte chunk, then EOF (and a stray
trailing result the loop never reaches). -/
def readsEx : List ReadResult := [.ok [104, 105], .ok [], .err]

/-- Usage records whose per-model costs cancel exactly (1.0 and -1.0 are
exactly representable in binary64 and their IEEE sum is exactly 0.0)
while one model carries a million input tokens. -/
def cexUsages : List ModelUsage :=
  [{ input_tokens := some 1000000, output_tokens := none,
     cache_read_input_tokens := none, cache_creation_input_tokens := none,
     cost_u_s_d := some 1 },
   { input_tokens := none, output_tokens := none,
     cache_read_input_tokens := none, cache_creation_input_tokens := none,
     cost_u_s_d := some (-1) }]

/-- A single usage record with a nonzero reported cost. -/
def exUsages : List ModelUsage :=
  [{ input_tokens := some 2000000, output_tokens := some 1000,
     cache_read_input_tokens := some 0, cache_creation_input_tokens := some 0,
     cost_u_s_d := some 3 }]

/-- A directory with one kept child, one hidden child and one excluded
child. -/
def fsEx : FsNode :=
  .dir true [("a", .file), (".hidden", .file), ("dist", .dir true [("x", .file)])]

/-- The single entry the scanner reports for `fsEx`. -/
def entryEx : FileEntry := { path := "/r/a", file_type := "file", name := "a" }

/-! ## Registry lemmas -/

theorem lookupT_none_remove {id : Nat} {l : List (Nat × PtyInstance)}
    (h : lookupT id l = none) : removeT id l = l := by
  unfold lookupT at h
  have h2 : l.find? (fun p => p.1 == id) = none := by
    cases hf : l.find? (fun p => p.1 == id) <;> simp [hf] at h ⊢
  rw [List.find?_eq_none] at h2
  unfold removeT
  rw [List.filter_eq_self]
  intro p hp
  simpa using h2 p hp

theorem sessionIds_updateT (id : Nat) (v : PtyInstance) (st : TerminalState) :
    sessionIds { st with terminals := updateT id v st.terminals } = sessionIds st := by
  unfold sessionIds updateT
  rw [List.map_map]
  apply List.map_congr_left
  intro p _
  by_cases h : p.1 = id <;> simp [h]

theorem lookupT_updateT_self {id : Nat} {l : List (Nat × PtyInstance)} {inst : PtyInstance}
    (h : lookupT id l = some inst) (v : PtyInstance) :
    lookupT id (updateT id v l) = some v := by
  induction l with
  | nil => simp [lookupT] at h
  | cons p rest ih =>
    by_cases hp : p.1 = id
    · simp [lookupT, updateT, hp]
    · simp only [lookupT, updateT, List.map_cons, List.find?_cons, if_neg hp] at h ⊢
      have : (p.1 == id) = false := by simp [hp]
      rw [if_neg (by simp [hp])] at *
      simp only [this, cond_false] at h ⊢
      exact ih h

/-! ## C3, C6, C7, C8: control-surface error handling and frame effects -/

/-- C3: for a session id that is not registered (never created, or already
closed), `terminal_write` and `terminal_resize` fail with the not-found
error and leave the registry unchanged, while `terminal_close` succeeds
idempotently and also changes nothing. -/
theorem stale_session_ops (st : TerminalState) (id : Nat) (data : String)
    (wErr fErr : Option String) (rows cols : Nat) (rErr : Option String)
    (h : lookupT id st.terminals = none) :
    terminal_write st id data wErr fErr = (.error (notFoundMsg id), st) ∧
    terminal_resize st id rows cols rErr = (.error (notFoundMsg id), st) ∧
    terminal_close st id = (.ok (), st) := by
  refine ⟨?_, ?_, ?_⟩
  · simp [terminal_write, h]
  · simp [terminal_resize, h]
  · simp [terminal_close, lookupT_none_remove h]

/-- C3 witness: the operations on id 5 in the empty registry. -/
theorem stale_session_ops_witness :
    terminal_write TerminalState.new 5 "x" none none =
      (.error (notFoundMsg 5), TerminalState.new) ∧
    terminal_resize TerminalState.new 5 24 80 none =
      (.error (notFoundMsg 5), TerminalState.new) ∧
    terminal_close TerminalState.new 5 = (.ok (), TerminalState.new) :=
  stale_session_ops TerminalState.new 5 "x" none none 24 80 none rfl

/-- C8: `terminal_resize` never modifies the registry: for every id,
geometry (including zero rows/cols) and backend outcome the state
component is returned exactly as it was (so the session set, the counter
and every other session are untouched), and the result is the not-found
error for an absent id, the backend error if the backend resize fails,
and success otherwise. -/
theorem terminal_resize_frame (st : TerminalState) (id : Nat) (rows cols : Nat)
    (rErr : Option String) :
    (terminal_resize st id rows cols rErr).2 = st ∧
    (lookupT id st.terminals = none →
      (terminal_resize st id rows cols rErr).1 = .error (notFoundMsg id)) ∧
    (∀ inst, lookupT id st.terminals = some inst → rErr = none →
      (terminal_resize st id rows cols rErr).1 = .ok ()) ∧
    (∀ inst e, lookupT id st.terminals = some inst → rErr = some e →
      (terminal_resize st id rows cols rErr).1 =
        .error ("Failed to resize terminal: " ++ e)) := by
  refine ⟨?_, ?_, ?_, ?_⟩
  · cases h : lookupT id st.terminals <;> cases rErr <;> simp [terminal_resize, h]
  · intro h; simp [terminal_resize, h]
  · intro inst h he; subst he; simp [terminal_resize, h]
  · intro inst e h he; subst he; simp [terminal_resize, h]

/-- C8 witness: zero geometry against the one-session registry, for a
succeeding and for a failing backend call. -/
theorem terminal_resize_frame_witness :
    (terminal_resize stW 1 0 0 none).2 = stW ∧
    (terminal_resize stW 1 0 0 none).1 = .ok () ∧
    (terminal_resize stW 1 0 0 (some "bad size")).2 = stW ∧
    (terminal_resize stW 1 0 0 (some "bad size")).1 =
      .error ("Failed to resize terminal: bad size") ∧
    (terminal_resize stW 2 0 0 none).1 = .error (notFoundMsg 2) :=
  ⟨(terminal_resize_frame stW 1 0 0 none).1,
   (terminal_resize_frame stW 1 0 0 none).2.2.1 _ rfl rfl,
   (terminal_resize_frame stW 1 0 0 (some "bad size")).1,
   (terminal_resize_frame stW 1 0 0 (some "bad size")).2.2.2 _ "bad size" rfl rfl,
   (terminal_resize_frame stW 2 0 0 none).2.1 rfl⟩

/-- C6: every failure of `terminal_create` (PTY allocation, shell spawn,
writer acquisition, reader acquisition) surfaces its descriptive error and
leaves the registry exactly as it was: nothing inserted, the counter not
incremented. -/
theorem terminal_create_failure_atomic (env : CreateEnv) (rows cols : Nat)
    (cwd : Option String) (st : TerminalState) :
    (envOk env = false →
      (terminal_create env rows cols cwd st).2 = st ∧
      ∃ msg, (terminal_create env rows cols cwd st).1 = .error msg) ∧
    (∀ e, env.openpty = .error e →
      terminal_create env rows cols cwd st =
        (.error ("Failed to open PTY: " ++ e), st)) ∧
    (∀ e, env.openpty = .ok () → env.spawn_result = .error e →
      terminal_create env rows cols cwd st =
        (.error ("Failed to spawn shell: " ++ e), st)) ∧
    (∀ e, env.openpty = .ok () → env.spawn_result = .ok () →
      env.take_writer = .error e →
      terminal_create env rows cols cwd st =
        (.error ("Failed to get PTY writer: " ++ e), st)) ∧
    (∀ e, env.openpty = .ok () → env.spawn_result = .ok () →
      env.take_writer = .ok () → env.clone_reader = .error e →
      terminal_create env rows cols cwd st =
        (.error ("Failed to get PTY reader: " ++ e), st)) := by
  obtain ⟨o, sh, hd, sp, tw, cr⟩ := env
  refine ⟨?_, ?_, ?_, ?_, ?_⟩
  · intro hfail
    cases o <;> cases sp <;> cases tw <;> cases cr <;>
      simp_all [envOk, terminal_create]
  · intro e he; subst he; simp [terminal_create]
  · intro e ho he; cases ho; subst he; simp [terminal_create]
  · intro e ho hs he; cases ho; cases hs; subst he; simp [terminal_create]
  · intro e ho hs hw he; cases ho; cases hs; cases hw; subst he
    simp [terminal_create]

/-- C6 witness: a failing PTY allocation against the empty registry. -/
theorem terminal_create_failure_atomic_witness :
    terminal_create envFailOpen 24 80 none TerminalState.new =
      (.error ("Failed to open PTY: boom"), TerminalState.new) :=
  (terminal_create_failure_atomic envFailOpen 24 80 none TerminalState.new).2.1 "boom" rfl

/-- C7: for a registered session, `terminal_write` appends the UTF-8
bytes of the payload to the session's writer and flushes them before
returning success (nothing left pending, everything delivered); a failing
write or flush is reported as the corresponding error and never removes
the session (the session set and counter are preserved and the id stays
registered in every case). -/
theorem terminal_write_delivers_or_reports (st : TerminalState) (id : Nat)
    (data : String) (inst : PtyInstance)
    (h : lookupT id st.terminals = some inst) :
    (terminal_write st id data none none =
      (.ok (), { st with terminals := updateT id ({ writer := { pending := [], delivered := inst.writer.delivered ++ (inst.writer.pending ++ utf8Encode data) } }) st.terminals })) ∧
    (lookupT id (terminal_write st id data none none).2.terminals =
      some { writer := { pending := [], delivered := inst.writer.delivered ++ (inst.writer.pending ++ utf8Encode data) } }) ∧
    (∀ e fErr, terminal_write st id data (some e) fErr =
      (.error ("Failed to write to terminal: " ++ e), st)) ∧
    (∀ e, terminal_write st id data none (some e) =
      (.error ("Failed to flush terminal: " ++ e),
        { st with terminals := updateT id ({ writer := { pending := inst.writer.pending ++ utf8Encode data, delivered := inst.writer.delivered } }) st.terminals })) ∧
    (∀ wErr fErr,
      sessionIds (terminal_write st id data wErr fErr).2 = sessionIds st ∧
      (terminal_write st id data wErr fErr).2.next_id = st.next_id ∧
      lookupT id (terminal_write st id data wErr fErr).2.terminals ≠ none) := by
  refine ⟨?_, ?_, ?_, ?_, ?_⟩
  · simp [terminal_write, h]
  · simp [terminal_write, h, lookupT_updateT_self h]
  · intro e fErr; simp [terminal_write, h]
  · intro e; simp [terminal_write, h]
  · intro wErr fErr
    cases wErr with
    | some e =>
      simp [terminal_write, h]
    | none =>
      cases fErr with
      | some e =>
        refine ⟨?_, ?_, ?_⟩
        · simp only [terminal_write, h]; exact sessionIds_updateT id _ st
        · simp [terminal_write, h]
        · simp [terminal_write, h, lookupT_updateT_self h]
      | none =>
        refine ⟨?_, ?_, ?_⟩
        · simp only [terminal_write, h]; exact sessionIds_updateT id _ st
        · simp [terminal_write, h]
        · simp [terminal_write, h, lookupT_updateT_self h]

/-- C7 witness: a successful write of "hi" to session 1 of the
one-session registry, and failing write/flush calls against it. -/
theorem terminal_write_delivers_or_reports_witness :
    terminal_write stW 1 "hi" none none =
      (.ok (), { stW with terminals := updateT 1 ({ writer := { pending := [], delivered := [] ++ ([] ++ utf8Encode "hi") } }) stW.terminals }) ∧
    terminal_write stW 1 "hi" (some "broken pipe") none =
      (.error ("Failed to write to terminal: broken pipe"), stW) ∧
    sessionIds (terminal_write stW 1 "hi" none (some "broken pipe")).2 = sessionIds stW ∧
    lookupT 1 (terminal_write stW 1 "hi" none (some "broken pipe")).2.terminals ≠ none :=
  ⟨(terminal_write_delivers_or_reports stW 1 "hi" _ rfl).1,
   (terminal_write_delivers_or_reports stW 1 "hi" _ rfl).2.2.1 "broken pipe" none,
   ((terminal_write_delivers_or_reports stW 1 "hi" _ rfl).2.2.2.2 none (some "broken pipe")).1,
   ((terminal_write_delivers_or_reports stW 1 "hi" _ rfl).2.2.2.2 none (some "broken pipe")).2.2⟩

/-! ## C1: session-id allocation -/

theorem terminal_create_of_envOk {env : CreateEnv} (h : envOk env = true)
    (rows cols : Nat) (cwd : Option String) (st : TerminalState) :
    terminal_create env rows cols cwd st =
      (.ok st.next_id,
        { terminals := insertT st.next_id ({ writer := { pending := [], delivered := [] } }) st.terminals,
          next_id := (st.next_id + 1) % u32Mod }) := by
  obtain ⟨o, sh, hd, sp, tw, cr⟩ := env
  cases o <;> cases sp <;> cases tw <;> cases cr <;> simp_all [envOk, terminal_create]

theorem terminal_create_of_envFail {env : CreateEnv} (h : envOk env = false)
    (rows cols : Nat) (cwd : Option String) (st : TerminalState) :
    (∃ msg, (terminal_create env rows cols cwd st).1 = .error msg) ∧
    (terminal_create env rows cols cwd st).2 = st := by
  obtain ⟨o, sh, hd, sp, tw, cr⟩ := env
  cases o <;> cases sp <;> cases tw <;> cases cr <;> simp_all [envOk, terminal_create]

theorem terminal_write_next_id (st : TerminalState) (id : Nat) (data : String)
    (wErr fErr : Option String) :
    (terminal_write st id data wErr fErr).2.next_id = st.next_id := by
  cases h : lookupT id st.terminals <;> cases wErr <;> cases fErr <;>
    simp [terminal_write, h]

theorem terminal_resize_next_id (st : TerminalState) (id rows cols : Nat)
    (rErr : Option String) :
    (terminal_resize st id rows cols rErr).2.next_id = st.next_id := by
  cases h : lookupT id st.terminals <;> cases rErr <;> simp [terminal_resize, h]

theorem terminal_close_next_id (st : TerminalState) (id : Nat) :
    (terminal_close st id).2.next_id = st.next_id := rfl

theorem mem_natRange : ∀ (n s i : Nat), i ∈ natRange s n ↔ s ≤ i ∧ i < s + n := by
  intro n
  induction n with
  | zero => intro s i; simp [natRange]
  | succ m ih =>
    intro s i
    simp only [natRange, List.mem_cons, ih]
    omega

theorem natRange_pairwise : ∀ (n s : Nat), (natRange s n).Pairwise (· < ·) := by
  intro n
  induction n with
  | zero => intro s; simp [natRange]
  | succ m ih =>
    intro s
    refine List.Pairwise.cons ?_ (ih (s + 1))
    intro i hi
    exact lt_of_lt_of_le (Nat.lt_succ_self s) ((mem_natRange m (s + 1) i).mp hi).1

theorem natRange_concat : ∀ (n s : Nat), natRange s (n + 1) = natRange s n ++ [s + n] := by
  intro n
  induction n with
  | zero => intro s; simp [natRange]
  | succ m ih =>
    intro s
    show s :: natRange (s + 1) (m + 1) = (s :: natRange (s + 1) m) ++ [s + (m + 1)]
    rw [ih (s + 1)]
    simp [Nat.add_assoc, Nat.add_comm 1 m]

theorem countCreates_cons (op : Op) (ops : List Op) :
    countCreates (op :: ops) =
      countCreates ops + (if isCreateOk op then 1 else 0) := by
  simp [countCreates, List.countP_cons]

theorem runOps_spec : ∀ (ops : List Op) (st : TerminalState),
    st.next_id + countCreates ops < u32Mod →
    (runOps st ops).1.next_id = st.next_id + countCreates ops ∧
    (runOps st ops).2 = natRange st.next_id (countCreates ops) := by
  intro ops
  induction ops with
  | nil => intro st _; simp [runOps, countCreates, natRange]
  | cons op rest ih =>
    intro st h
    rw [countCreates_cons] at h ⊢
    cases op with
    | create env r c cwd =>
      cases henv : envOk env with
      | true =>
        have hcnt : st.next_id + 1 + countCreates rest < u32Mod := by
          simp [isCreateOk, henv] at h; omega
        have hmod : (st.next_id + 1) % u32Mod = st.next_id + 1 :=
          Nat.mod_eq_of_lt (by omega)
        have hstep :
            stepOp st (.create env r c cwd) =
              ({ terminals := insertT st.next_id ({ writer := { pending := [], delivered := [] } }) st.terminals,
                 next_id := (st.next_id + 1) % u32Mod }, some st.next_id) := by
          simp [stepOp, terminal_create_of_envOk henv]
        have ih2 := ih
          ({ terminals := insertT st.next_id ({ writer := { pending := [], delivered := [] } }) st.terminals,
             next_id := (st.next_id + 1) % u32Mod })
          (by simpa [hmod] using hcnt)
        simp only [runOps, hstep, hmod] at ih2 ⊢
        refine ⟨by rw [ih2.1]; simp [isCreateOk, henv]; omega, ?_⟩
        rw [ih2.2]
        simp only [isCreateOk, henv, if_true, Option.toList_some]
        show st.next_id :: natRange (st.next_id + 1) (countCreates rest) =
          natRange st.next_id (countCreates rest + 1)
        rfl
      | false =>
        have hstep : (stepOp st (.create env r c cwd)).2 = none := by
          obtain ⟨hmsg, _⟩ := terminal_create_of_envFail henv r c cwd st
          obtain ⟨msg, hm⟩ := hmsg
          simp only [stepOp]
          split
          · simp_all
          · rfl
        have hst : (stepOp st (.create env r c cwd)).1 = st := by
          obtain ⟨hmsg, h2⟩ := terminal_create_of_envFail henv r c cwd st
          obtain ⟨msg, hm⟩ := hmsg
          simp only [stepOp]
          split
          · simp_all
          · rename_i heq
            have := congrArg Prod.snd heq
            simp at this
            rw [← this, h2]
        have ih2 := ih st (by simp [isCreateOk, henv] at h ⊢; omega)
        simp only [runOps, hstep, hst, Option.toList_none, List.nil_append] at ih2 ⊢
        simpa [isCreateOk, henv] using ih2
    | write id data wErr fErr =>
      have ih2 := ih (stepOp st (.write id data wErr fErr)).1 ?_
      · simp only [runOps] at ih2 ⊢
        simp only [stepOp] at ih2 ⊢
        rw [terminal_write_next_id] at ih2
        simpa [isCreateOk] using ih2
      · simp only [stepOp]
        rw [terminal_write_next_id]
        simp [isCreateOk] at h ⊢
        omega
    | resize id r c rErr =>
      have ih2 := ih (stepOp st (.resize id r c rErr)).1 ?_
      · simp only [runOps] at ih2 ⊢
        simp only [stepOp] at ih2 ⊢
        rw [terminal_resize_next_id] at ih2
        simpa [isCreateOk] using ih2
      · simp only [stepOp]
        rw [terminal_resize_next_id]
        simp [isCreateOk] at h ⊢
        omega
    | close id =>
      have ih2 := ih (stepOp st (.close id)).1 ?_
      · simp only [runOps] at ih2 ⊢
        simp only [stepOp] at ih2 ⊢
        rw [terminal_close_next_id] at ih2
        simpa [isCreateOk] using ih2
      · simp only [stepOp]
        rw [terminal_close_next_id]
        simp [isCreateOk] at h ⊢
        omega

theorem runOps_append : ∀ (l1 l2 : List Op) (st : TerminalState),
    runOps st (l1 ++ l2) =
      ((runOps (runOps st l1).1 l2).1,
        (runOps st l1).2 ++ (runOps (runOps st l1).1 l2).2) := by
  intro l1
  induction l1 with
  | nil => intro l2 st; simp [runOps]
  | cons op rest ih => intro l2 st; simp [runOps, ih, List.append_assoc]

theorem countCreates_replicate : ∀ n : Nat,
    countCreates (List.replicate n createOpOk) = n := by
  intro n
  induction n with
  | zero => simp [countCreates]
  | succ m ih =>
    rw [List.replicate_succ, countCreates_cons, ih]
    simp [isCreateOk, createOpOk, envOk]

theorem runOps_three_creates (st : TerminalState) :
    (runOps st [createOpOk, createOpOk, createOpOk]).2 =
      [st.next_id, (st.next_id + 1) % u32Mod,
        ((st.next_id + 1) % u32Mod + 1) % u32Mod] := by
  simp [runOps, stepOp, createOpOk, terminal_create]

/-- C1 (amended): for every command sequence containing fewer than
`2 ^ 32 - 1` successful `terminal_create` calls, run from a fresh
registry, the returned session ids are strictly increasing, never
repeat, all lie strictly below the final `next_id`, and the first id
handed out is 1 — even across intervening `terminal_close` (and write and
resize) calls. -/
theorem terminal_create_ids_monotone (ops : List Op)
    (h : countCreates ops < u32Mod - 1) :
    ((runOps TerminalState.new ops).2.Pairwise (· < ·)) ∧
    ((runOps TerminalState.new ops).2.Nodup) ∧
    (∀ i ∈ (runOps TerminalState.new ops).2,
      i < (runOps TerminalState.new ops).1.next_id) ∧
    ((runOps TerminalState.new ops).2.head? =
      if countCreates ops = 0 then none else some 1) := by
  have hm : u32Mod = 4294967296 := by norm_num [u32Mod]
  have h2 : TerminalState.new.next_id + countCreates ops < u32Mod := by
    show 1 + countCreates ops < u32Mod
    omega
  obtain ⟨hn, hids⟩ := runOps_spec ops TerminalState.new h2
  rw [hids, hn]
  have hone : TerminalState.new.next_id = 1 := rfl
  rw [hone]
  refine ⟨natRange_pairwise _ _,
    (natRange_pairwise _ _).imp (fun hlt => Nat.ne_of_lt hlt), ?_, ?_⟩
  · intro i hi
    have := ((mem_natRange _ _ _).mp hi).2
    omega
  · cases hc : countCreates ops with
    | zero => simp [natRange]
    | succ m => simp [natRange]

/-- C1 witness: two successful creations with an intervening close hand
out the strictly increasing ids 1 and 2. -/
theorem terminal_create_ids_monotone_witness :
    ((runOps TerminalState.new opsEx).2.Pairwise (· < ·)) ∧
    ((runOps TerminalState.new opsEx).2.Nodup) ∧
    (∀ i ∈ (runOps TerminalState.new opsEx).2,
      i < (runOps TerminalState.new opsEx).1.next_id) ∧
    ((runOps TerminalState.new opsEx).2.head? =
      if countCreates opsEx = 0 then none else some 1) :=
  terminal_create_ids_monotone opsEx (by decide)

/-- C1 counterexample: the claim as stated quantifies over all create
sequences, but the `u32` counter wraps: a run of `2 ^ 32 + 1` successful
creations returns ids `1, ..., 2 ^ 32 - 1, 0, 1`, which are neither
strictly increasing nor free of repetitions (id 1 is returned twice). -/
theorem terminal_create_ids_wrap_cex :
    ¬ (((runOps TerminalState.new (List.replicate (u32Mod + 1) createOpOk)).2.Pairwise (· < ·)) ∧
       ((runOps TerminalState.new (List.replicate (u32Mod + 1) createOpOk)).2.Nodup)) := by
  intro hcon
  have hm : u32Mod = 4294967296 := by norm_num [u32Mod]
  have hsplit : List.replicate (u32Mod + 1) createOpOk =
      List.replicate (u32Mod - 2) createOpOk ++ [createOpOk, createOpOk, createOpOk] := by
    have h3 : u32Mod + 1 = (u32Mod - 2) + 3 := by omega
    rw [h3, List.replicate_add]
    norm_num [List.replicate_succ]
  rw [hsplit, runOps_append] at hcon
  have hfst := runOps_spec (List.replicate (u32Mod - 2) createOpOk) TerminalState.new
    (by rw [countCreates_replicate]; show 1 + (u32Mod - 2) < u32Mod; omega)
  obtain ⟨hn1, hids1⟩ := hfst
  rw [countCreates_replicate] at hn1 hids1
  have hone : TerminalState.new.next_id = 1 := rfl
  rw [hone] at hn1 hids1
  have h3 := runOps_three_creates (runOps TerminalState.new (List.replicate (u32Mod - 2) createOpOk)).1
  rw [hn1] at h3
  rw [hids1, h3] at hcon
  simp only [hm] at hcon
  norm_num at hcon
  obtain ⟨hpair, hnodup⟩ := hcon
  rw [List.nodup_append] at hnodup
  have h1mem : (1 : Nat) ∈ natRange 1 4294967294 :=
    (mem_natRange _ _ _).mpr (by norm_num)
  have h1mem2 : (1 : Nat) ∈ [4294967295, 0, 1] := by norm_num
  exact hnodup.2.2 h1mem h1mem2

/-! ## C2: the registry lock during `terminal_write` I/O -/

/-- C2 counterexample: the claim that no shared lock is held during the
blocking write-and-flush of `terminal_write` is false: the lock acquired
at lib.rs:309 is still held when `write_all` (lib.rs:317) executes,
because the looked-up session borrows from the guard, which is only
dropped when the function returns. -/
theorem terminal_write_lock_claim_cex :
    ¬ (∀ p ∈ writeLockTrace, isBlockingIO p.1 = true → p.2 = false) := by
  decide

/-- C2 (amended): the registry lock IS held across both blocking PTY I/O
steps of `terminal_write` (`write_all` and `flush`), so two concurrent
`terminal_write` calls — even to two different session ids — contend on
the same registry lock for the duration of the blocking write. -/
theorem terminal_write_lock_held_during_io :
    writeLockTrace.filter (fun p => isBlockingIO p.1) =
      [(.ptyWriteAll, true), (.ptyFlush, true)] := by
  decide

/-! ## C4, C5: the reader worker's event stream -/

theorem isLead2_bounds {b : Nat} (h : isLead2 b = true) : 0xC2 ≤ b ∧ b ≤ 0xDF := by
  simpa [isLead2] using h

theorem isLead3_bounds {b : Nat} (h : isLead3 b = true) : 0xE0 ≤ b ∧ b ≤ 0xEF := by
  simpa [isLead3] using h

theorem isLead4_bounds {b : Nat} (h : isLead4 b = true) : 0xF0 ≤ b ∧ b ≤ 0xF4 := by
  simpa [isLead4] using h

theorem utf8Lossy_ascii {b : Nat} (hb : b ≤ 0x7F) (r : List Nat) :
    utf8Lossy (b :: r) = b :: utf8Lossy r := by
  rw [utf8Lossy.eq_def]
  simp [hb]

theorem utf8Lossy_two {b c1 : Nat} (hb : isLead2 b = true) (hc1 : isCont c1 = true)
    (r : List Nat) : utf8Lossy (b :: c1 :: r) = b :: c1 :: utf8Lossy r := by
  have h1 := isLead2_bounds hb
  rw [utf8Lossy.eq_def]
  simp only [show ¬ b ≤ 0x7F by omega, if_false, hb, if_true]
  simp [hc1]

theorem utf8Lossy_three {b c1 c2 : Nat} (hb : isLead3 b = true)
    (hc1 : cont2Ok b c1 = true) (hc2 : isCont c2 = true) (r : List Nat) :
    utf8Lossy (b :: c1 :: c2 :: r) = b :: c1 :: c2 :: utf8Lossy r := by
  have h1 := isLead3_bounds hb
  have h2 : isLead2 b = false := by simp [isLead2]; omega
  rw [utf8Lossy.eq_def]
  simp only [show ¬ b ≤ 0x7F by omega, if_false, h2, Bool.false_eq_true, hb, if_true]
  simp [hc1, hc2]

theorem utf8Lossy_four {b c1 c2 c3 : Nat} (hb : isLead4 b = true)
    (hc1 : cont2Ok b c1 = true) (hc2 : isCont c2 = true) (hc3 : isCont c3 = true)
    (r : List Nat) :
    utf8Lossy (b :: c1 :: c2 :: c3 :: r) = b :: c1 :: c2 :: c3 :: utf8Lossy r := by
  have h1 := isLead4_bounds hb
  have h2 : isLead2 b = false := by simp [isLead2]; omega
  have h3 : isLead3 b = false := by simp [isLead3]; omega
  rw [utf8Lossy.eq_def]
  simp only [show ¬ b ≤ 0x7F by omega, if_false, h2, h3, Bool.false_eq_true, hb, if_true]
  simp [hc1, hc2, hc3]

/-- The lossy decoder is the identity on well-formed UTF-8 byte lists. -/
theorem utf8Lossy_of_chunks {l : List Nat} (h : Utf8Chunks l) : utf8Lossy l = l := by
  induction h with
  | nil => rfl
  | ascii hb _ ih => rw [utf8Lossy_ascii hb, ih]
  | two hb hc1 _ ih => rw [utf8Lossy_two hb hc1, ih]
  | three hb hc1 hc2 _ ih => rw [utf8Lossy_three hb hc1 hc2, ih]
  | four hb hc1 hc2 hc3 _ ih => rw [utf8Lossy_four hb hc1 hc2 hc3, ih]

theorem chunksRead_cons_ok (b : Nat) (bs : List Nat) (rest : List ReadResult) :
    chunksRead (.ok (b :: bs) :: rest) = (b :: bs) :: chunksRead rest := by
  simp [chunksRead, isStopRead, List.takeWhile_cons]

theorem chunksRead_cons_eof (rest : List ReadResult) :
    chunksRead (.ok [] :: rest) = [] := by
  simp [chunksRead, isStopRead, List.takeWhile_cons]

theorem chunksRead_cons_err (rest : List ReadResult) :
    chunksRead (.err :: rest) = [] := by
  simp [chunksRead, isStopRead, List.takeWhile_cons]

theorem readerRun_eq (id : Nat) (code : Option Nat) : ∀ (reads : List ReadResult),
    hasTerminator reads = true →
    readerRun id code reads =
      (chunksRead reads).map (fun c => TermEvent.output id (utf8Lossy c)) ++
        [TermEvent.exit id code] := by
  intro reads
  induction reads with
  | nil => intro h; simp [hasTerminator] at h
  | cons r rest ih =>
    intro h
    cases r with
    | err => simp [readerRun, chunksRead_cons_err]
    | ok c =>
      cases c with
      | nil => simp [readerRun, chunksRead_cons_eof]
      | cons b bs =>
        have h2 : hasTerminator rest = true := by
          simpa [hasTerminator, isStopRead] using h
        rw [show readerRun id code (.ok (b :: bs) :: rest) =
              .output id (utf8Lossy (b :: bs)) :: readerRun id code rest from rfl,
          ih h2, chunksRead_cons_ok]
        simp

theorem readerRun_payloads (id : Nat) (code : Option Nat) :
    ∀ (reads : List ReadResult),
    outputPayloads (readerRun id code reads) = (chunksRead reads).map utf8Lossy := by
  intro reads
  induction reads with
  | nil => rfl
  | cons r rest ih =>
    cases r with
    | err => simp [readerRun, chunksRead_cons_err, outputPayloads]
    | ok c =>
      cases c with
      | nil => simp [readerRun, chunksRead_cons_eof, outputPayloads]
      | cons b bs =>
        rw [show readerRun id code (.ok (b :: bs) :: rest) =
              .output id (utf8Lossy (b :: bs)) :: readerRun id code rest from rfl,
          chunksRead_cons_ok]
        simp only [outputPayloads, List.filterMap_cons, List.map_cons]
        rw [show outputPayloads (readerRun id code rest) =
              (readerRun id code rest).filterMap
                (fun e => match e with | .output _ d => some d | .exit _ _ => none) from rfl] at ih
        rw [ih]

theorem chunksRead_ne_nil : ∀ (reads : List ReadResult), ∀ c ∈ chunksRead reads, c ≠ [] := by
  intro reads
  induction reads with
  | nil => simp [chunksRead]
  | cons r rest ih =>
    cases r with
    | err => simp [chunksRead_cons_err]
    | ok c =>
      cases c with
      | nil => simp [chunksRead_cons_eof]
      | cons b bs =>
        rw [chunksRead_cons_ok]
        intro c hc
        rcases List.mem_cons.mp hc with hc | hc
        · subst hc; exact List.cons_ne_nil b bs
        · exact ih c hc

/-- C4: whenever the read-result stream reaches a loop terminator (EOF or
read error) — in particular whenever the child process terminates and the
PTY stream ends — the reader worker's trace is exactly its output events
followed by one `terminal-exit` event: the exit event is published exactly
once, strictly after the loop has stopped and hence after every output
event of the session. -/
theorem reader_exit_once_after_outputs (id : Nat) (code : Option Nat)
    (reads : List ReadResult) (h : hasTerminator reads = true) :
    readerRun id code reads =
      (chunksRead reads).map (fun c => TermEvent.output id (utf8Lossy c)) ++
        [TermEvent.exit id code] ∧
    (readerRun id code reads).filter isExitEvent = [TermEvent.exit id code] ∧
    (readerRun id code reads).getLast? = some (TermEvent.exit id code) ∧
    (∀ e ∈ (readerRun id code reads).dropLast, isExitEvent e = false) := by
  have heq := readerRun_eq id code reads h
  refine ⟨heq, ?_, ?_, ?_⟩
  · rw [heq, List.filter_append]
    have hnil : (List.map (fun c => TermEvent.output id (utf8Lossy c))
        (chunksRead reads)).filter isExitEvent = [] := by
      induction chunksRead reads with
      | nil => rfl
      | cons c cs ih => simp [isExitEvent, ih]
    rw [hnil]
    simp [isExitEvent]
  · rw [heq]
    exact List.getLast?_concat _
  · rw [heq, List.dropLast_concat]
    intro e he
    obtain ⟨c, _, rfl⟩ := List.mem_map.mp he
    rfl

/-- C4 witness: a stream with one chunk and an EOF. -/
theorem reader_exit_once_after_outputs_witness :
    readerRun 7 (some 0) readsEx =
      (chunksRead readsEx).map (fun c => TermEvent.output 7 (utf8Lossy c)) ++
        [TermEvent.exit 7 (some 0)] ∧
    (readerRun 7 (some 0) readsEx).filter isExitEvent = [TermEvent.exit 7 (some 0)] ∧
    (readerRun 7 (some 0) readsEx).getLast? = some (TermEvent.exit 7 (some 0)) ∧
    (∀ e ∈ (readerRun 7 (some 0) readsEx).dropLast, isExitEvent e = false) :=
  reader_exit_once_after_outputs 7 (some 0) readsEx (by decide)

/-- C5: the payloads of a session's output events are, in order, exactly
the lossy decodings of the nonzero chunks read before the loop stops
(one event per nonzero read, none for a zero-length read), and when every
chunk is well-formed UTF-8 their concatenation equals the concatenated
byte stream read from the PTY. -/
theorem reader_output_stream_faithful (id : Nat) (code : Option Nat)
    (reads : List ReadResult) :
    outputPayloads (readerRun id code reads) = (chunksRead reads).map utf8Lossy ∧
    (∀ c ∈ chunksRead reads, c ≠ []) ∧
    ((∀ c ∈ chunksRead reads, Utf8Chunks c) →
      (outputPayloads (readerRun id code reads)).flatten = (chunksRead reads).flatten) := by
  refine ⟨readerRun_payloads id code reads, chunksRead_ne_nil reads, ?_⟩
  intro hv
  rw [readerRun_payloads]
  have hmap : ∀ (l : List (List Nat)), (∀ c ∈ l, Utf8Chunks c) → l.map utf8Lossy = l := by
    intro l hl
    induction l with
    | nil => rfl
    | cons c cs ih =>
      rw [List.map_cons, utf8Lossy_of_chunks (hl c (by simp)),
        ih (fun x hx => hl x (List.mem_cons_of_mem c hx))]
  rw [hmap _ hv]

/-- C5 witness: the chunk "hi" is delivered verbatim. -/
theorem reader_output_stream_faithful_witness :
    outputPayloads (readerRun 7 (some 0) readsEx) = (chunksRead readsEx).map utf8Lossy ∧
    (outputPayloads (readerRun 7 (some 0) readsEx)).flatten = (chunksRead readsEx).flatten := by
  refine ⟨(reader_output_stream_faithful 7 (some 0) readsEx).1,
    (reader_output_stream_faithful 7 (some 0) readsEx).2.2 ?_⟩
  intro c hc
  have he : chunksRead readsEx = [[104, 105]] := rfl
  rw [he] at hc
  simp at hc
  subst hc
  exact Utf8Chunks.ascii (by norm_num) (Utf8Chunks.ascii (by norm_num) Utf8Chunks.nil)

/-! ## C9: cost aggregation and the zero-cost estimate -/

theorem foldl_accumUsage : ∀ (usages : List ModelUsage) (s : ClaudeStats),
    s.input_tokens + inputSum usages < u64Mod →
    s.output_tokens + outputSum usages < u64Mod →
    s.cache_read_input_tokens + cacheReadSum usages < u64Mod →
    s.cache_creation_input_tokens + cacheCreationSum usages < u64Mod →
    usages.foldl accumUsage s =
      { input_tokens := s.input_tokens + inputSum usages,
        output_tokens := s.output_tokens + outputSum usages,
        cache_read_input_tokens := s.cache_read_input_tokens + cacheReadSum usages,
        cache_creation_input_tokens :=
          s.cache_creation_input_tokens + cacheCreationSum usages,
        cost_usd := s.cost_usd + costSum usages } := by
  intro usages
  induction usages with
  | nil =>
    intro s _ _ _ _
    simp only [List.foldl_nil, inputSum, outputSum, cacheReadSum, cacheCreationSum,
      costSum, List.map_nil, List.sum_nil, Nat.add_zero, add_zero]
  | cons u rest ih =>
    intro s h1 h2 h3 h4
    have e1 : inputSum (u :: rest) = u.input_tokens.getD 0 + inputSum rest := by
      simp [inputSum]
    have e2 : outputSum (u :: rest) = u.output_tokens.getD 0 + outputSum rest := by
      simp [outputSum]
    have e3 : cacheReadSum (u :: rest) =
        u.cache_read_input_tokens.getD 0 + cacheReadSum rest := by
      simp [cacheReadSum]
    have e4 : cacheCreationSum (u :: rest) =
        u.cache_creation_input_tokens.getD 0 + cacheCreationSum rest := by
      simp [cacheCreationSum]
    have e5 : costSum (u :: rest) = u.cost_u_s_d.getD 0 + costSum rest := by
      simp [costSum]
    rw [e1] at h1 ⊢
    rw [e2] at h2 ⊢
    rw [e3] at h3 ⊢
    rw [e4] at h4 ⊢
    rw [e5]
    have m1 : (s.input_tokens + u.input_tokens.getD 0) % u64Mod =
        s.input_tokens + u.input_tokens.getD 0 := Nat.mod_eq_of_lt (by omega)
    have m2 : (s.output_tokens + u.output_tokens.getD 0) % u64Mod =
        s.output_tokens + u.output_tokens.getD 0 := Nat.mod_eq_of_lt (by omega)
    have m3 : (s.cache_read_input_tokens + u.cache_read_input_tokens.getD 0) % u64Mod =
        s.cache_read_input_tokens + u.cache_read_input_tokens.getD 0 :=
      Nat.mod_eq_of_lt (by omega)
    have m4 : (s.cache_creation_input_tokens + u.cache_creation_input_tokens.getD 0) % u64Mod =
        s.cache_creation_input_tokens + u.cache_creation_input_tokens.getD 0 :=
      Nat.mod_eq_of_lt (by omega)
    rw [List.foldl_cons]
    rw [ih (accumUsage s u) (by simp [accumUsage, m1]; omega)
      (by simp [accumUsage, m2]; omega) (by simp [accumUsage, m3]; omega)
      (by simp [accumUsage, m4]; omega)]
    simp only [accumUsage, m1, m2, m3, m4]
    simp only [Nat.add_assoc, add_assoc]

/-- C9 (amended): `get_claude_stats` reports the Opus-pricing estimate
computed from the aggregated token counts (at 15, 75, 1.875 and 18.75
USD per million input, output, cache-read and cache-creation tokens)
exactly when the per-model cost fields sum to zero, and otherwise reports
exactly that sum.  (The token-sum bounds say the `u64` counters do not
wrap during aggregation.) -/
theorem claude_stats_cost_spec (usages : List ModelUsage)
    (h1 : inputSum usages < u64Mod) (h2 : outputSum usages < u64Mod)
    (h3 : cacheReadSum usages < u64Mod) (h4 : cacheCreationSum usages < u64Mod) :
    (get_claude_stats usages).cost_usd =
      (if costSum usages = 0 then
        (inputSum usages : ℚ) / 1000000 * 15 + (outputSum usages : ℚ) / 1000000 * 75
          + (cacheReadSum usages : ℚ) / 1000000 * 1.875
          + (cacheCreationSum usages : ℚ) / 1000000 * 18.75
      else costSum usages) := by
  have hf := foldl_accumUsage usages ClaudeStats.default
    (by simpa [ClaudeStats.default] using h1)
    (by simpa [ClaudeStats.default] using h2)
    (by simpa [ClaudeStats.default] using h3)
    (by simpa [ClaudeStats.default] using h4)
  unfold get_claude_stats
  rw [hf]
  by_cases hc : costSum usages = 0 <;> simp [hc, ClaudeStats.default]

/-- C9 witness: a single model with cost 3 reports cost 3. -/
theorem claude_stats_cost_spec_witness :
    (get_claude_stats exUsages).cost_usd =
      (if costSum exUsages = 0 then
        (inputSum exUsages : ℚ) / 1000000 * 15 + (outputSum exUsages : ℚ) / 1000000 * 75
          + (cacheReadSum exUsages : ℚ) / 1000000 * 1.875
          + (cacheCreationSum exUsages : ℚ) / 1000000 * 18.75
      else costSum exUsages) :=
  claude_stats_cost_spec exUsages (by decide) (by decide) (by decide) (by decide)

/-- C9 counterexample: with two models whose costs are 1.0 and -1.0
(exactly representable, their IEEE-754 sum exactly 0.0) and one model
carrying a million input tokens, some model contributes a nonzero cost,
yet the reported cost is the 15 USD estimate, not the 0 sum of the
per-model cost fields — refuting the claim's "when any model contributes
a nonzero cost, the reported cost is exactly the sum of the per-model
cost fields". -/
theorem claude_stats_cost_cancellation_cex :
    (∃ u ∈ cexUsages, u.cost_u_s_d.getD 0 ≠ 0) ∧
    costSum cexUsages = 0 ∧
    (get_claude_stats cexUsages).cost_usd = 15 ∧
    (get_claude_stats cexUsages).cost_usd ≠ costSum cexUsages := by
  have hcost : costSum cexUsages = 0 := by
    norm_num [costSum, cexUsages]
  have hstats : (get_claude_stats cexUsages).cost_usd = 15 := by
    norm_num [get_claude_stats, accumUsage, ClaudeStats.default, cexUsages, u64Mod]
  refine ⟨?_, hcost, hstats, ?_⟩
  · refine ⟨{ input_tokens := some 1000000, output_tokens := none, cache_read_input_tokens := none, cache_creation_input_tokens := none, cost_u_s_d := some 1 }, ?_, by norm_num⟩
    norm_num [cexUsages]
  · rw [hstats, hcost]
    norm_num

/-! ## C10: directory-scan filtering and depth bound -/

theorem scanFuel_sound : ∀ (fuel : Nat) (cur : String) (node : FsNode)
    (e : FileEntry), e ∈ scanFuel fuel cur node →
    startsWithDot e.name = false ∧ excludedNames.contains e.name = false ∧
    ∃ d, d < fuel ∧ EntryAt cur node d e := by
  intro fuel
  induction fuel with
  | zero => intro cur node e he; simp [scanFuel] at he
  | succ n ih =>
    intro cur node e he
    match node with
    | .file => simp [scanFuel] at he
    | .dir false children => simp [scanFuel] at he
    | .dir true children =>
      rw [show scanFuel (n + 1) cur (.dir true children) =
            children.flatMap (fun child =>
              if startsWithDot child.1 then []
              else if excludedNames.contains child.1 then []
              else
                { path := joinPath cur child.1,
                  file_type := fileTypeOf child.2,
                  name := child.1 } ::
                (if child.2.isDir then scanFuel n (joinPath cur child.1) child.2 else []))
          from rfl] at he
      rw [List.mem_flatMap] at he
      obtain ⟨⟨name, child⟩, hmem, hin⟩ := he
      dsimp only at hin
      cases hdot : startsWithDot name with
      | true => simp [hdot] at hin
      | false =>
        cases hex : excludedNames.contains name with
        | true =>
          have hex2 : name ∈ excludedNames := by simpa using hex
          simp [hdot, hex2] at hin
        | false =>
          simp only [hdot, hex, Bool.false_eq_true, if_false, List.mem_cons] at hin
          rcases hin with hentry | hrec
          · subst hentry
            exact ⟨hdot, hex, 0, Nat.succ_pos n, EntryAt.base hmem hdot hex⟩
          · cases hdir : child.isDir with
            | false => simp [hdir] at hrec
            | true =>
              rw [if_pos (by simp [hdir])] at hrec
              obtain ⟨h1, h2, d, hd, hEA⟩ := ih (joinPath cur name) child e hrec
              exact ⟨h1, h2, d + 1, Nat.succ_lt_succ hd,
                EntryAt.step hmem hdot hex hdir hEA⟩

/-- C10: every entry `scan_directory` returns for an existing path has a
name that neither starts with a dot nor is one of the excluded directory
names, and stems from a node strictly fewer than `max_depth` levels below
the root; in particular, for every existing path, `max_depth = 0` yields
`Ok` with the empty list. -/
theorem scan_directory_filter_depth_spec (fs : FsNode) (p : String)
    (maxD : Nat) (l : List FileEntry)
    (h : scan_directory (some fs) p maxD = .ok l) :
    (∀ e ∈ l, startsWithDot e.name = false ∧
      excludedNames.contains e.name = false ∧ ∃ d, d < maxD ∧ EntryAt p fs d e) ∧
    (maxD = 0 → l = []) := by
  have hl : l = scanFuel maxD p fs := by
    have := h
    simp only [scan_directory, scan_dir_recursive, Nat.sub_zero] at this
    exact (Except.ok.inj this).symm
  subst hl
  refine ⟨fun e he => scanFuel_sound maxD p fs e he, fun h0 => ?_⟩
  subst h0
  rfl

/-- C10 witness: scanning a directory with one kept child, one hidden
child and one excluded child at `max_depth = 1`. -/
theorem scan_directory_filter_depth_spec_witness :
    (∀ e ∈ [entryEx], startsWithDot e.name = false ∧
      excludedNames.contains e.name = false ∧ ∃ d, d < 1 ∧ EntryAt "/r" fsEx d e) ∧
    ((1 : Nat) = 0 → [entryEx] = []) :=
  scan_directory_filter_depth_spec fsEx "/r" 1 [entryEx] rfl
